import Mathlib

/-!  Shallow embedding of the reseller-backend catalog API.

The repository is a FastAPI + SQLAlchemy service with four routers
(app/routers/category.py, report.py, report_image.py, press_release.py) over a
relational store of categories, reports and report images.  The database is
modelled as a `Store` of lists; every endpoint becomes a pure function from a
`Store` (and the request) to a result, with SQL clauses translated clause by
clause: `filter` to `List.filter`, inner `join` to a flat-map over matching
pairs, `order_by` to a sort by the relevant key, `offset`/`limit` to
`List.drop`/`List.take`, `first()` to `List.find?`.

Two database builtins are kept as parameters rather than modelled:
`func.cast(Report.created_date, DateTime)` (the created_date strings are cast
by PostgreSQL; any key function `castDT : String → Int` stands for the cast)
and `func.to_tsvector(...).match(...)` full-text search (`fts`); the theorems
hold for every instantiation.  For concrete witnesses the cast is instantiated
with `dateKey`, a parser of the "YYYY/MM/DD" strings the repository itself
produces (report.py line 791), and `fts` with the constantly-false match.

Python string operations used by the Excel transform (str.lower, str.split,
str.replace, str.join) are given executable models over `List Char`
(`pyLower`, `pySplit`, `pyReplace`, `List.intercalate`); `pySplit` is
fuel-driven with fuel `length + 1`, which is enough for every non-empty
separator (each step consumes at least one character), and the repository only
splits on the non-empty separators "market", "global ", " ", "/" and a newline.
-/

namespace Reseller

/-! ### Python string primitives -/

/-- Python `str.lower` on the ASCII data this repository handles. -/
def pyLower (s : List Char) : List Char := s.map Char.toLower

/-- Index of the leftmost occurrence of `sep` in `l`, if any (the position at
which Python `str.split`/`str.replace` match first). -/
def findOcc (sep : List Char) : List Char → Option Nat
  | [] => if sep.isPrefixOf [] then some 0 else none
  | c :: rest =>
    if sep.isPrefixOf (c :: rest) then some 0
    else (findOcc sep rest).map (· + 1)

/-- Fuel-driven worker for `pySplit`: split off the piece before the leftmost
occurrence of `sep` and recurse past the separator. -/
def pySplitAux (sep : List Char) : Nat → List Char → List (List Char)
  | 0, l => [l]
  | fuel + 1, l =>
    match findOcc sep l with
    | none => [l]
    | some i => l.take i :: pySplitAux sep fuel (l.drop (i + sep.length))

/-- Python `str.split(sep)` for a non-empty separator: pieces between the
non-overlapping, leftmost-first occurrences of `sep`.  Fuel `length + 1`
suffices because each recursive step consumes at least `i + sep.length ≥ 1`
characters of a non-empty list. -/
def pySplit (sep l : List Char) : List (List Char) := pySplitAux sep (l.length + 1) l

/-- Python `str.replace(old, new)` for non-empty `old`: equals
`new.join(s.split(old))`. -/
def pyReplace (old new s : List Char) : List Char := List.intercalate new (pySplit old s)

/-- String-level wrapper of `pyReplace`. -/
def pyReplaceS (old new s : String) : String := ⟨pyReplace old.data new.data s.data⟩

/-- Case-insensitive substring containment: the property "the title contains
the keyword as a case-insensitive substring".  `Report.title.ilike(f"%{keyword}%")`
(report.py line 247) has exactly this semantics for keywords without LIKE
wildcard or escape characters. -/
def titleContainsCI (keyword title : String) : Prop :=
  pyLower keyword.data <:+: pyLower title.data

instance (keyword title : String) : Decidable (titleContainsCI keyword title) :=
  List.decidableInfix _ _

/-- Boolean form of the ILIKE substring filter of report.py line 247. -/
def ilike_contains (keyword title : String) : Bool :=
  decide (titleContainsCI keyword title)

/-- Key for the `func.cast(Report.created_date, DateTime)` ordering, for the
"YYYY/MM/DD" date strings the repository itself writes (report.py line 791):
chronological order as `y * 10000 + m * 100 + d`.  Strings of another shape map
to 0.  Used to instantiate the `castDT` parameter in concrete witnesses. -/
def digitsVal (l : List Char) : Nat := l.foldl (fun acc c => acc * 10 + (c.toNat - 48)) 0

def dateKey (s : String) : Int :=
  match pySplit ['/'] s.data with
  | [y, m, d] => ((digitsVal y) * 10000 + (digitsVal m) * 100 + digitsVal d : Nat)
  | _ => 0

/-- The constantly-false full-text match, an admissible instantiation of the
`fts` parameter for concrete witnesses. -/
def ftsFalse : String → String → Bool := fun _ _ => false

/-! ### Data model (spec section 3; app.models is imported by the routers) -/

structure Category where
  id : Nat
  abr : String
  name : String
  url : String
  icon : String
  back_cover : String
  meta_title : String
  meta_desc : String
  meta_keyword : String
deriving DecidableEq

structure Report where
  id : Nat
  title : String
  url : String
  category_id : Nat
  summary : String
  description : String
  toc : String
  highlights : String
  faqs : String
  meta_title : String
  meta_desc : String
  meta_keyword : String
  pages : String
  cover_img : String
  created_date : String
deriving DecidableEq

structure ReportImage where
  id : Nat
  img_name : String
  img_file : String
deriving DecidableEq

/-- The relational store the routers read and write, with the autoincrement
counters the database keeps for the two tables the service inserts into. -/
structure Store where
  categories : List Category
  reports : List Report
  images : List ReportImage
  nextReportId : Nat
  nextImageId : Nat
deriving DecidableEq

/-! ### Request bodies (pydantic models of the routers) -/

structure CreateCategoryRequest where
  abr : String
  name : String
  url : String
  icon : String
  back_cover : String
  meta_title : String
  meta_desc : String
  meta_keyword : String
deriving DecidableEq

structure CreateReportImageRequest where
  img_name : String
  img_file : String
deriving DecidableEq

structure CreateReport where
  title : String
  url : String
  category_id : Nat
  summary : String
  description : String
  toc : String
  highlights : String
  faqs : String
  meta_title : String
  meta_desc : String
  meta_keyword : String
  pages : String
  cover_img : String
  created_date : String
deriving DecidableEq

structure CreateReportWithImages where
  report : CreateReport
  images : List CreateReportImageRequest
deriving DecidableEq

/-! ### Category service (category.py) -/

/-- Message of the TypeError Python raises at category.py line 30, where
`create_category` runs `db_category = category(**category.dict())`: it invokes
the request object `category` (a pydantic `BaseModel` instance, which is not
callable) instead of the `Category` model class, so the exception is raised
before `db.add`/`db.commit` ever run. -/
def requestNotCallableMsg : String :=
  "TypeError: object is not callable"

/-- category.py lines 26-34, `create_category`.  Calling the request object
raises before any insert, so the endpoint can never return a store: the
transaction sees no write and the store the caller keeps is unchanged. -/
def create_category (_st : Store) (_category : CreateCategoryRequest) :
    Except String (Store × Category) :=
  .error requestNotCallableMsg

/-- category.py lines 52-55, `get_category_by_id`: `filter(Category.id == category_id).first()`
wrapped as the response payload.  The endpoint raises nothing: an unknown id
yields a successful response whose data is null (`first()` returns None). -/
def get_category_by_id (st : Store) (category_id : Nat) : Except String (Option Category) :=
  .ok (st.categories.find? (fun c => c.id == category_id))

/-! ### Report image service (report_image.py) -/

/-- Replace the first element satisfying `p` by its image under `f` (SQLAlchemy
updates the one row `first()` returned). -/
def updateFirst (p : α → Bool) (f : α → α) : List α → List α
  | [] => []
  | x :: xs => if p x then f x :: xs else x :: updateFirst p f xs

/-- report_image.py lines 26-41, `create_report_image`: look up a row with the
request's `img_name`; insert a fresh row when none exists, otherwise overwrite
the found row's fields with the request's values (no insert). -/
def create_report_image (st : Store) (image : CreateReportImageRequest) : Store :=
  match st.images.find? (fun im => im.img_name == image.img_name) with
  | none =>
      { st with
        images := st.images ++ [{ id := st.nextImageId, img_name := image.img_name,
                                  img_file := image.img_file }],
        nextImageId := st.nextImageId + 1 }
  | some _ =>
      { st with
        images := updateFirst (fun im => im.img_name == image.img_name)
          (fun im => { im with img_name := image.img_name, img_file := image.img_file })
          st.images }

/-! ### Report service: create and delete (report.py) -/

/-- The Report row built from a `CreateReport` body with the id the database
assigns (report.py line 453, `Report(**report.report.dict())`). -/
def reportOfRequest (rid : Nat) (r : CreateReport) : Report :=
  { id := rid, title := r.title, url := r.url, category_id := r.category_id,
    summary := r.summary, description := r.description, toc := r.toc,
    highlights := r.highlights, faqs := r.faqs, meta_title := r.meta_title,
    meta_desc := r.meta_desc, meta_keyword := r.meta_keyword, pages := r.pages,
    cover_img := r.cover_img, created_date := r.created_date }

/-- report.py lines 451-465, `create_report`: insert the report, then insert
each image of the request with every occurrence of the placeholder token "XXX"
in its name replaced by the new report's id (line 459,
`image.img_name.replace("XXX", str(db_report.id))`).  Returns the new store and
the id the report was assigned. -/
def create_report (st : Store) (req : CreateReportWithImages) : Store × Nat :=
  let rid := st.nextReportId
  let st1 : Store :=
    { st with reports := st.reports ++ [reportOfRequest rid req.report],
              nextReportId := rid + 1 }
  let st2 := req.images.foldl
    (fun acc image =>
      { acc with
        images := acc.images ++ [{ id := acc.nextImageId,
                                   img_name := pyReplaceS "XXX" (toString rid) image.img_name,
                                   img_file := image.img_file }],
        nextImageId := acc.nextImageId + 1 })
    st1
  (st2, rid)

/-- report.py lines 467-482, `bulk_create_report`: the body of `create_report`
run once per element of the list. -/
def bulk_create_report (st : Store) (reports : List CreateReportWithImages) : Store :=
  reports.foldl (fun acc req => (create_report acc req).1) st

/-- report.py lines 499-507, `delete_report`: 404 when no row has the id,
otherwise delete the row `first()` found.  Nothing else is touched: no cascade,
the report's images (associated only by the naming convention) stay. -/
def delete_report (st : Store) (report_id : Nat) : Except String Store :=
  match st.reports.find? (fun r => r.id == report_id) with
  | none => .error "Report not found"
  | some _ => .ok { st with reports := st.reports.eraseP (fun r => r.id == report_id) }

/-! ### Report service: reads (report.py)

SQL inner joins become flat-maps over matching pairs, `order_by` a sort by the
key the query casts to, `offset`/`limit` a drop and a take.  PostgreSQL raises
on a negative OFFSET or LIMIT (the routers validate neither `page` nor
`per_page`), so the model returns those database errors; every other path is a
successful response. -/

/-- The row shape `get_searched_reports` selects (its `with_entities` list,
report.py lines 227-238, delivered as `GetReport`). -/
structure GetReportRow where
  id : Nat
  url : String
  category_id : Nat
  category_name : String
  category_url : String
  summary : String
  title : String
  pages : String
  cover_img : String
  created_date : String
deriving DecidableEq

/-- The row shape `get_latest_reports` selects (report.py lines 188-193). -/
structure GetLatestRow where
  title : String
  url : String
  summary : String
  cover_img : String
deriving DecidableEq

def toRow (rc : Report × Category) : GetReportRow :=
  { id := rc.1.id, url := rc.1.url, category_id := rc.1.category_id,
    category_name := rc.2.name, category_url := rc.2.url, summary := rc.1.summary,
    title := rc.1.title, pages := rc.1.pages, cover_img := rc.1.cover_img,
    created_date := rc.1.created_date }

def latestProj (r : Report) : GetLatestRow :=
  { title := r.title, url := r.url, summary := r.summary, cover_img := r.cover_img }

/-- The inner join `join(Category, Category.id == Report.category_id)`: one
pair per report and matching category. -/
def joinReportCategory (st : Store) : List (Report × Category) :=
  st.reports.flatMap (fun r =>
    (st.categories.filter (fun c => c.id == r.category_id)).map (fun c => (r, c)))

/-- The WHERE clause of `get_searched_reports` (report.py lines 239-257): the
full-text match OR the case-insensitive substring match on the title, and the
category filter when a category_id was supplied. -/
def searchFilter (fts : String → String → Bool) (keyword : String)
    (category_id : Option Nat) (rc : Report × Category) : Bool :=
  (fts keyword rc.1.title || ilike_contains keyword rc.1.title) &&
  (match category_id with
   | none => true
   | some cid => rc.1.category_id == cid)

/-- Descending order on the cast of created_date: the relation under which
`order_by(func.cast(Report.created_date, DateTime).desc())` sorts. -/
def byDateDesc (castDT : String → Int) (a b : GetReportRow) : Prop :=
  castDT b.created_date ≤ castDT a.created_date

instance (castDT : String → Int) : DecidableRel (byDateDesc castDT) :=
  fun a b => inferInstanceAs (Decidable (castDT b.created_date ≤ castDT a.created_date))

/-- The full matched, ordered result sequence of the search, before
offset/limit pagination. -/
def searchAll (castDT : String → Int) (fts : String → String → Bool) (keyword : String)
    (category_id : Option Nat) (st : Store) : List GetReportRow :=
  List.insertionSort (byDateDesc castDT)
    (((joinReportCategory st).filter (searchFilter fts keyword category_id)).map toRow)

/-- report.py lines 213-278, `get_searched_reports`: filter, order by the cast
of created_date descending, then `offset((page - 1) * per_page).limit(per_page)`. -/
def get_searched_reports (castDT : String → Int) (fts : String → String → Bool)
    (page per_page : Int) (keyword : String) (category_id : Option Nat) (st : Store) :
    Except String (List GetReportRow) :=
  let offset := (page - 1) * per_page
  if offset < 0 then .error "OFFSET must not be negative"
  else if per_page < 0 then .error "LIMIT must not be negative"
  else .ok (((searchAll castDT fts keyword category_id st).drop offset.toNat).take per_page.toNat)

/-- The two-part order key of `get_latest_reports` (report.py line 194):
created_date cast descending, then id ascending. -/
def latestLE (castDT : String → Int) (a b : Report) : Prop :=
  castDT b.created_date < castDT a.created_date ∨
    (castDT a.created_date = castDT b.created_date ∧ a.id ≤ b.id)

instance (castDT : String → Int) : DecidableRel (latestLE castDT) :=
  fun a b => inferInstanceAs (Decidable (castDT b.created_date < castDT a.created_date ∨
    (castDT a.created_date = castDT b.created_date ∧ a.id ≤ b.id)))

/-- The ordered sequence `get_latest_reports` paginates. -/
def latestAll (castDT : String → Int) (st : Store) : List Report :=
  List.insertionSort (latestLE castDT) st.reports

/-- report.py lines 178-210, `get_latest_reports`: order all reports, then
`offset((page - 1) * per_page).limit(per_page)`, projected to the four selected
columns. -/
def get_latest_reports (castDT : String → Int) (page per_page : Int) (st : Store) :
    Except String (List GetLatestRow) :=
  let offset := (page - 1) * per_page
  if offset < 0 then .error "OFFSET must not be negative"
  else if per_page < 0 then .error "LIMIT must not be negative"
  else .ok ((((latestAll castDT st).map latestProj).drop offset.toNat).take per_page.toNat)

/-! ### Report service: category counts (report.py lines 146-175) -/

structure CategoryCountRow where
  category_id : Nat
  category_url : String
  category_abr : String
  category_name : String
  category_back_cover : String
  category_icon : String
  count : Nat
deriving DecidableEq

/-- How many reports carry this category id (`func.count(Report.category_id)`
of the group of the inner join). -/
def reportCount (st : Store) (cid : Nat) : Nat :=
  st.reports.countP (fun r => r.category_id == cid)

/-- Ascending order on category name (`order_by(Category.name.asc())`). -/
def byNameAsc (a b : Category) : Prop := a.name ≤ b.name

instance : DecidableRel byNameAsc :=
  fun a b => inferInstanceAs (Decidable (a.name ≤ b.name))

/-- report.py lines 146-175, `get_category_count`: the inner join keeps exactly
the categories with at least one report; group by category id, count the rows
of each group, order by name ascending. -/
def get_category_count (st : Store) : List CategoryCountRow :=
  ((List.insertionSort byNameAsc st.categories).filter
      (fun c => reportCount st c.id != 0)).map
    (fun c =>
      { category_id := c.id, category_url := c.url, category_abr := c.abr,
        category_name := c.name, category_back_cover := c.back_cover,
        category_icon := c.icon, count := reportCount st c.id })

/-! ### Excel transform (report.py lines 509-812, `convert_excel_to_json`)

`pd.read_excel(file.file, sheet_name=None)` yields the workbook as an ordered
mapping of sheet name to rows; the loop at lines 784-785 overwrites `json_data`
on every iteration, so only the last worksheet survives.  The per-row field
transforms of lines 786-803 are modelled below; the conversion of the
millisecond timestamp by `datetime.fromtimestamp` (line 791) depends on the
host timezone and stays a parameter `fmtDate : Int → String`. -/

/-- A spreadsheet row as the transform reads it: the `category_id` column
carries a category NAME; `description` may be null; the remaining columns pass
through. -/
structure ExcelRow where
  title : String
  category : String
  pages : Int
  created_date : Int
  description : Option String
  summary : String
  meta_desc : String
  toc : String
  highlights : String
  meta_title : String
deriving DecidableEq

/-- The dynamically-typed `category_id` cell: the raw name until the lookup
loop replaces it with an id. -/
inductive CatValue where
  | name (s : String)
  | id (n : Nat)
deriving DecidableEq

/-- The hardcoded category lookup table of report.py lines 520-774, as
(id, name) pairs in the order the source lists them. -/
def category_list : List (Nat × String) :=
  [(6, "Advanced Material"), (22, "Agriculture"), (1, "Analytics"),
   (17, "Architecture"), (21, "Automobile & Transportation"), (19, "Biotechnology"),
   (15, "Building Materials"), (4, "Chemicals & Materials"), (10, "Commercial Aviation"),
   (12, "Consumer Goods"), (18, "Convenience Food"), (7, "Electronics & Semiconductors"),
   (14, "Energy & Power"), (13, "Feed and Animal Nutrition"), (23, "Food & Beverages"),
   (9, "Household Appliances"), (20, "Industrial Equipment"), (16, "Information Technology"),
   (2, "Machinery & Equipment"), (11, "Medical Devices"), (24, "Packaging"),
   (3, "Pharma & Healthcare"), (5, "Services")]

/-- The lookup loop of report.py lines 795-797: the cell starts as the sheet's
name and is replaced by `cat.id` at the first name match (once it is an id, the
comparison with later names is false). -/
def mapCategory (v : String) : CatValue :=
  category_list.foldl
    (fun acc cat =>
      match acc with
      | .name s => if s = cat.2 then .id cat.1 else acc
      | .id n => .id n)
    (.name v)

/-- report.py lines 788-789, the url slug:
`(title.lower().split('market')[0] + 'market').replace('global ', '').split(' ')`
joined with hyphens. -/
def derive_url (title : String) : String :=
  let lowered := pyLower title.data
  let truncated := (pySplit "market".data lowered).headD [] ++ "market".data
  let cleaned := pyReplace "global ".data [] truncated
  ⟨List.intercalate ['-'] (pySplit [' '] cleaned)⟩

/-- The payload entry the transform appends per row (the `report` dict of
line 801; its `images` list is always empty, line 802). -/
structure PayloadReport where
  title : String
  url : String
  category_id : CatValue
  summary : String
  meta_desc : String
  description : Option String
  toc : String
  highlights : String
  meta_title : String
  faqs : String
  cover_img : String
  meta_keyword : String
  pages : String
  created_date : String
deriving DecidableEq

/-- report.py lines 786-803: one row's field transforms. -/
def transformRow (fmtDate : Int → String) (row : ExcelRow) : PayloadReport :=
  { title := row.title,
    url := derive_url row.title,
    category_id := mapCategory row.category,
    summary := match row.description with
      | some d => ⟨(pySplit ['\n'] d.data).headD []⟩
      | none => row.summary,
    meta_desc := match row.description with
      | some d => ⟨(pySplit ['\n'] d.data).headD []⟩
      | none => row.meta_desc,
    description := row.description,
    toc := row.toc,
    highlights := row.highlights,
    meta_title := row.meta_title,
    faqs := "",
    cover_img := "",
    meta_keyword := "",
    pages := toString row.pages,
    created_date := fmtDate row.created_date }

/-- report.py lines 782-785: `json_data` is overwritten on every iteration of
the sheet loop, so what survives is the last sheet's rows (the initial empty
dict when the workbook has no sheet). -/
def lastSheetRows (sheets : List (String × List ExcelRow)) : List ExcelRow :=
  sheets.foldl (fun _ s => s.2) []

/-- report.py lines 509-805, `convert_excel_to_json` on an accepted file: the
payload built from the rows the sheet loop left in `json_data`, each with an
empty image list. -/
def convert_excel_to_json (fmtDate : Int → String) (sheets : List (String × List ExcelRow)) :
    List (PayloadReport × List CreateReportImageRequest) :=
  (lastSheetRows sheets).map (fun row => (transformRow fmtDate row, []))

/-! ### Definitions taken from the specification's wording, for comparison -/

/-- Modelled from the claim's wording of the slug derivation (spec section 8 /
claim C4): lowercase the title, truncate after the FIRST occurrence of
"market", strip a LEADING "global " (a prefix strip, not a global replace),
hyphen-join the words.  Compared against the source's `derive_url`. -/
def spec_slug (title : String) : String :=
  let lowered := pyLower title.data
  let truncated :=
    match findOcc "market".data lowered with
    | some i => lowered.take (i + "market".data.length)
    | none => lowered
  let stripped :=
    if "global ".data.isPrefixOf truncated then truncated.drop "global ".data.length
    else truncated
  ⟨List.intercalate ['-'] (pySplit [' '] stripped)⟩

/-- The slug derivation as the code actually behaves, in the amended claim's
words: lowercase, truncate after the first occurrence of "market" (appending
"market" when there is no occurrence), remove EVERY occurrence of "global ",
hyphen-join the words. -/
def amended_slug (title : String) : String :=
  let lowered := pyLower title.data
  let truncated :=
    match findOcc "market".data lowered with
    | some i => lowered.take i ++ "market".data
    | none => lowered ++ "market".data
  ⟨List.intercalate ['-'] (pySplit [' '] (pyReplace "global ".data [] truncated))⟩

/-! ### Helper lemmas -/

lemma pySplit_head (sep l : List Char) :
    (pySplit sep l).headD [] =
      match findOcc sep l with
      | some i => l.take i
      | none => l := by
  unfold pySplit pySplitAux
  cases h : findOcc sep l <;> simp [h]

lemma updateFirst_length (p : α → Bool) (f : α → α) (l : List α) :
    (updateFirst p f l).length = l.length := by
  induction l with
  | nil => rfl
  | cons x xs ih => cases h : p x <;> simp [updateFirst, h, ih]

lemma mem_updateFirst_of_not (p : α → Bool) (f : α → α) {l : List α} {x : α}
    (hx : x ∈ l) (hpx : p x = false) : x ∈ updateFirst p f l := by
  induction l with
  | nil => cases hx
  | cons y ys ih =>
    rcases List.mem_cons.mp hx with rfl | hmem
    · rw [updateFirst, hpx]
      simp
    · cases h : p y with
      | true => simp only [updateFirst, h, if_pos]; exact List.mem_cons_of_mem _ hmem
      | false => simp only [updateFirst, h]; exact List.mem_cons_of_mem _ (ih hmem)

lemma exists_mem_updateFirst {p : α → Bool} (f : α → α) {l : List α}
    (h : ∃ y ∈ l, p y = true) :
    ∃ y, p y = true ∧ f y ∈ updateFirst p f l := by
  induction l with
  | nil => rcases h with ⟨y, hy, _⟩; cases hy
  | cons a t ih =>
    cases ha : p a with
    | true => exact ⟨a, ha, by simp [updateFirst, ha]⟩
    | false =>
      have h' : ∃ y ∈ t, p y = true := by
        rcases h with ⟨y, hy, hp⟩
        rcases List.mem_cons.mp hy with rfl | hmem
        · rw [ha] at hp; cases hp
        · exact ⟨y, hmem, hp⟩
      rcases ih h' with ⟨y, hp, hmem⟩
      refine ⟨y, hp, ?_⟩
      simp only [updateFirst, ha, if_neg]
      exact List.mem_cons_of_mem _ hmem

lemma find?_id_eq_some {l : List Category} {c : Category} {cid : Nat}
    (hnd : (l.map Category.id).Nodup) (hc : c ∈ l) (hid : c.id = cid) :
    l.find? (fun x => x.id == cid) = some c := by
  induction l with
  | nil => cases hc
  | cons a t ih =>
    rw [List.map_cons, List.nodup_cons] at hnd
    rcases List.mem_cons.mp hc with rfl | hmem
    · exact List.find?_cons_of_pos _ (by simp [hid])
    · have hne : ¬ ((a.id == cid) = true) := by
        intro hbeq
        have h2 : a.id = c.id := by rw [beq_iff_eq.mp hbeq, hid]
        exact hnd.1 (by rw [h2]; exact List.mem_map_of_mem Category.id hmem)
      rw [List.find?_cons_of_neg (p := fun x => x.id == cid) t hne]
      exact ih hnd.2 hmem

lemma find?_id_eq_none {l : List Category} {cid : Nat}
    (h : cid ∉ l.map Category.id) :
    l.find? (fun x => x.id == cid) = none := by
  apply List.find?_eq_none.mpr
  intro x hx hbeq
  exact h (beq_iff_eq.mp hbeq ▸ List.mem_map_of_mem Category.id hx)

lemma eraseP_id_not_mem {l : List Report} {rid : Nat}
    (hnd : (l.map Report.id).Nodup) :
    ∀ x ∈ l.eraseP (fun x => x.id == rid), x.id ≠ rid := by
  induction l with
  | nil => intro x hx; cases hx
  | cons a t ih =>
    rw [List.map_cons, List.nodup_cons] at hnd
    intro x hx hxid
    rw [List.eraseP_cons] at hx
    cases ha : (a.id == rid) with
    | true =>
      rw [ha] at hx
      simp only [cond_true] at hx
      have haid : a.id = rid := beq_iff_eq.mp ha
      exact hnd.1 (by rw [haid, ← hxid]; exact List.mem_map_of_mem Report.id hx)
    | false =>
      rw [ha] at hx
      simp only [cond_false] at hx
      rcases List.mem_cons.mp hx with rfl | hmem
      · exact absurd (beq_iff_eq.mpr hxid) (by simp [ha])
      · exact ih hnd.2 x hmem hxid

lemma sum_map_add_nat (f g : α → Nat) (l : List α) :
    (l.map (fun x => f x + g x)).sum = (l.map f).sum + (l.map g).sum := by
  induction l with
  | nil => rfl
  | cons a t ih => simp only [List.map_cons, List.sum_cons, ih]; omega

lemma sum_map_zero_nat (l : List α) : (l.map (fun _ => (0 : Nat))).sum = 0 := by
  induction l with
  | nil => rfl
  | cons a t ih => simp [ih]

lemma sum_indicator_zero (cats : List Category) (x : Nat)
    (h : x ∉ cats.map Category.id) :
    (cats.map (fun c => if x == c.id then 1 else 0)).sum = 0 := by
  induction cats with
  | nil => rfl
  | cons a t ih =>
    rw [List.map_cons] at h
    have hxa : ¬ ((x == a.id) = true) := by
      intro hbeq
      exact h (by rw [beq_iff_eq.mp hbeq]; exact List.mem_cons_self _ _)
    have hxt : x ∉ t.map Category.id := fun hm => h (List.mem_cons_of_mem _ hm)
    rw [List.map_cons, List.sum_cons, if_neg hxa, ih hxt]

lemma sum_indicator_one (cats : List Category) (x : Nat)
    (hnd : (cats.map Category.id).Nodup) (hmem : x ∈ cats.map Category.id) :
    (cats.map (fun c => if x == c.id then 1 else 0)).sum = 1 := by
  induction cats with
  | nil => cases hmem
  | cons a t ih =>
    rw [List.map_cons, List.nodup_cons] at hnd
    rw [List.map_cons] at hmem
    rcases List.mem_cons.mp hmem with hxa | hmem'
    · have hzero : (t.map (fun c => if x == c.id then 1 else 0)).sum = 0 :=
        sum_indicator_zero t x (by rw [hxa]; exact hnd.1)
      rw [List.map_cons, List.sum_cons, if_pos (beq_iff_eq.mpr hxa), hzero]
    · have hxa : ¬ ((x == a.id) = true) := by
        intro hbeq
        exact hnd.1 (by rw [← beq_iff_eq.mp hbeq]; exact hmem')
      rw [List.map_cons, List.sum_cons, if_neg hxa, ih hnd.2 hmem']

lemma sum_countP_eq_length (cats : List Category) (reports : List Report)
    (hnd : (cats.map Category.id).Nodup)
    (hfk : ∀ r ∈ reports, r.category_id ∈ cats.map Category.id) :
    (cats.map (fun c => reports.countP (fun r => r.category_id == c.id))).sum
      = reports.length := by
  induction reports with
  | nil =>
    have h0 : (cats.map (fun c => List.countP (fun r => r.category_id == c.id)
        ([] : List Report))).sum = (cats.map (fun _ => (0 : Nat))).sum := by
      simp [List.countP_nil]
    rw [h0, sum_map_zero_nat, List.length_nil]
  | cons r rs ih =>
    have step : (cats.map (fun c => List.countP (fun x => x.category_id == c.id) (r :: rs))).sum
        = (cats.map (fun c =>
            List.countP (fun x => x.category_id == c.id) rs
              + if r.category_id == c.id then 1 else 0)).sum := by
      simp only [List.countP_cons]
    rw [step, sum_map_add_nat, ih (fun x hx => hfk x (List.mem_cons_of_mem _ hx)),
      sum_indicator_one cats r.category_id hnd (hfk r (List.mem_cons_self _ _)),
      List.length_cons]

lemma sum_map_filter_eq (f : α → Nat) (p : α → Bool) (l : List α)
    (h : ∀ x ∈ l, p x = false → f x = 0) :
    ((l.filter p).map f).sum = (l.map f).sum := by
  induction l with
  | nil => rfl
  | cons a t ih =>
    have ht : ∀ x ∈ t, p x = false → f x = 0 :=
      fun x hx => h x (List.mem_cons_of_mem _ hx)
    cases ha : p a with
    | true => simp [List.filter_cons, ha, ih ht]
    | false => simp [List.filter_cons, ha, ih ht, h a (List.mem_cons_self _ _) ha]

/-! ### Concrete fixtures for witnesses and counterexamples -/

/-- A report with the fields the read queries touch; the rest empty. -/
def mkReport (id : Nat) (title : String) (category_id : Nat) (created_date : String) : Report :=
  { id := id, title := title, url := "", category_id := category_id, summary := "",
    description := "", toc := "", highlights := "", faqs := "", meta_title := "",
    meta_desc := "", meta_keyword := "", pages := "", cover_img := "",
    created_date := created_date }

def catAna : Category :=
  { id := 1, abr := "ANA", name := "Analytics", url := "analytics", icon := "",
    back_cover := "", meta_title := "", meta_desc := "", meta_keyword := "" }

def catMach : Category :=
  { id := 2, abr := "MAE", name := "Machinery & Equipment", url := "machinery-and-equipment",
    icon := "", back_cover := "", meta_title := "", meta_desc := "", meta_keyword := "" }

def emptyStore : Store :=
  { categories := [], reports := [], images := [], nextReportId := 1, nextImageId := 1 }

def storeCat : Store :=
  { categories := [catAna, catMach], reports := [], images := [],
    nextReportId := 1, nextImageId := 1 }

/-- Two reports whose titles both contain "alpha"; the first is newer. -/
def repNewer : Report := mkReport 1 "Alpha Market One" 1 "2024/01/02"

def repOlder : Report := mkReport 2 "Alpha Market Two" 1 "2024/01/01"

def storeSearch : Store :=
  { categories := [catAna], reports := [repNewer, repOlder], images := [],
    nextReportId := 3, nextImageId := 1 }

def storeLatest : Store :=
  { categories := [catAna], reports := [mkReport 1 "Beta Market" 1 "2024/02/01"],
    images := [], nextReportId := 2, nextImageId := 1 }

def storeCount : Store :=
  { categories := [catAna, catMach],
    reports := [mkReport 1 "A" 1 "2024/01/01", mkReport 2 "B" 1 "2024/01/02",
                mkReport 3 "C" 2 "2024/01/03"],
    images := [], nextReportId := 4, nextImageId := 1 }

/-- An image whose name ties it to report 1 by the naming convention. -/
def imgOfRep1 : ReportImage := { id := 1, img_name := "RP1_cover", img_file := "base64data" }

def storeDel : Store :=
  { categories := [catAna],
    reports := [mkReport 1 "Alpha Market" 1 "2024/01/01", mkReport 2 "Beta Market" 1 "2024/01/02"],
    images := [imgOfRep1], nextReportId := 3, nextImageId := 2 }

def xRow1 : ExcelRow :=
  { title := "Global Widget Market", category := "Analytics", pages := 150,
    created_date := 1700000000000, description := some "First line.\nSecond line.",
    summary := "", meta_desc := "", toc := "", highlights := "", meta_title := "" }

def xRow2 : ExcelRow :=
  { title := "Global Gadget Market", category := "Services", pages := 90,
    created_date := 1600000000000, description := none,
    summary := "s2", meta_desc := "m2", toc := "", highlights := "", meta_title := "" }

/-- The spreadsheet row of the claimed example: title "Global Widget Market",
category "Analytics". -/
def widgetRow : ExcelRow := xRow1

def fmtNone : Int → String := fun _ => ""

/-! ### Claims -/

/-- C10: for every store and every request body, the single-category create
endpoint fails before inserting anything: category.py line 30 invokes the
request object itself (`category(**category.dict())`) instead of the Category
model constructor, so Python raises TypeError before `db.add` and no Category
row is ever created; the error result carries no store, the caller's store is
unchanged. -/
theorem create_category_always_fails (st : Store) (req : CreateCategoryRequest) :
    create_category st req = .error requestNotCallableMsg := rfl

/-- C3 counterexample: with no category stored, looking up id 1 yields a
successful response whose data is null (`Except.ok none`), not a NotFound
error — refuting, at this concrete input, the claim that an absent id yields a
NotFound error rather than a null data value. -/
theorem category_missing_null_not_error_cex :
    get_category_by_id emptyStore 1 = .ok none ∧
    get_category_by_id emptyStore 1 ≠ .error "Category not found" := by
  exact ⟨rfl, by simp [get_category_by_id]⟩

/-- C3 (amended): for every category id present in a store with distinct ids,
`get_category_by_id` returns the matching row as the data of a successful
response; for every absent id it returns a successful response with null data
(never a NotFound error). -/
theorem get_category_by_id_lookup (st : Store) (c : Category) (cid : Nat)
    (hnd : (st.categories.map Category.id).Nodup) :
    (c ∈ st.categories → c.id = cid → get_category_by_id st cid = .ok (some c)) ∧
    (cid ∉ st.categories.map Category.id → get_category_by_id st cid = .ok none) := by
  constructor
  · intro hc hid
    unfold get_category_by_id
    rw [find?_id_eq_some hnd hc hid]
  · intro habs
    unfold get_category_by_id
    rw [find?_id_eq_none habs]

/-- C3 witness: the lookup theorem applied to a concrete two-category store
and id 1. -/
theorem get_category_by_id_lookup_witness :
    (catAna ∈ storeCat.categories → catAna.id = 1 →
      get_category_by_id storeCat 1 = .ok (some catAna)) ∧
    (1 ∉ storeCat.categories.map Category.id → get_category_by_id storeCat 1 = .ok none) :=
  get_category_by_id_lookup storeCat catAna 1 (by decide)

/-- C8: the report-image create endpoint has upsert semantics keyed on
img_name: when a row with the request's img_name exists, the row count is
unchanged and a row now carries the request's name and file (the found row was
overwritten); when no such row exists, exactly the new row is appended; rows
with a different img_name are always kept. -/
theorem report_image_upsert (st : Store) (req : CreateReportImageRequest) :
    ((∃ im ∈ st.images, im.img_name = req.img_name) →
      (create_report_image st req).images.length = st.images.length ∧
      ∃ im ∈ (create_report_image st req).images,
        im.img_name = req.img_name ∧ im.img_file = req.img_file) ∧
    ((∀ im ∈ st.images, im.img_name ≠ req.img_name) →
      (create_report_image st req).images =
        st.images ++ [{ id := st.nextImageId, img_name := req.img_name,
                        img_file := req.img_file }]) ∧
    (∀ im ∈ st.images, im.img_name ≠ req.img_name →
      im ∈ (create_report_image st req).images) := by
  cases hfind : st.images.find? (fun im => im.img_name == req.img_name) with
  | none =>
    have hall := List.find?_eq_none.mp hfind
    refine ⟨?_, ?_, ?_⟩
    · rintro ⟨im, hmem, hname⟩
      exact absurd (beq_iff_eq.mpr hname) (hall im hmem)
    · intro _
      simp only [create_report_image, hfind]
    · intro im hmem _
      simp only [create_report_image, hfind]
      exact List.mem_append_left _ hmem
  | some found =>
    refine ⟨?_, ?_, ?_⟩
    · intro _
      constructor
      · simp only [create_report_image, hfind]
        exact updateFirst_length _ _ _
      · have hpfound : (found.img_name == req.img_name) = true :=
          List.find?_some (p := fun (im : ReportImage) => im.img_name == req.img_name) hfind
        have hex : ∃ y ∈ st.images, (fun im => im.img_name == req.img_name) y = true :=
          ⟨found, List.mem_of_find?_eq_some hfind, hpfound⟩
        rcases exists_mem_updateFirst
          (fun im => { im with img_name := req.img_name, img_file := req.img_file }) hex
          with ⟨y, _, hymem⟩
        refine ⟨{ y with img_name := req.img_name, img_file := req.img_file }, ?_, rfl, rfl⟩
        simp only [create_report_image, hfind]
        exact hymem
    · intro hnone
      have hpfound : (found.img_name == req.img_name) = true :=
        List.find?_some (p := fun (im : ReportImage) => im.img_name == req.img_name) hfind
      exact absurd (beq_iff_eq.mp hpfound) (hnone found (List.mem_of_find?_eq_some hfind))
    · intro im hmem hname
      simp only [create_report_image, hfind]
      exact mem_updateFirst_of_not _ _ hmem (by simp [hname])

/-- C9: deleting an existing report removes exactly that Report row and leaves
the categories, the autoincrement counters and EVERY ReportImage row untouched
(no cascade — also the images tied to the deleted report by the naming
convention stay); with distinct report ids no report with the deleted id
remains. -/
theorem delete_report_no_cascade (st : Store) (rid : Nat) (r : Report)
    (hr : r ∈ st.reports) (hid : r.id = rid)
    (hnd : (st.reports.map Report.id).Nodup) :
    delete_report st rid =
      .ok { categories := st.categories,
            reports := st.reports.eraseP (fun x => x.id == rid),
            images := st.images, nextReportId := st.nextReportId,
            nextImageId := st.nextImageId } ∧
    (st.reports.eraseP (fun x => x.id == rid)).length + 1 = st.reports.length ∧
    (∀ x ∈ st.reports.eraseP (fun x => x.id == rid), x.id ≠ rid) := by
  refine ⟨?_, ?_, eraseP_id_not_mem hnd⟩
  · unfold delete_report
    cases hfind : st.reports.find? (fun x => x.id == rid) with
    | none =>
      have hb : (r.id == rid) = true := by simp [hid]
      exact absurd hb (List.find?_eq_none.mp hfind r hr)
    | some found => rfl
  · have hb : (r.id == rid) = true := by simp [hid]
    have hlen := List.length_eraseP_of_mem (p := fun x => x.id == rid) hr hb
    have hpos : 0 < st.reports.length := List.length_pos.mpr (List.ne_nil_of_mem hr)
    omega

/-- C9 witness: deleting report 1 from a concrete store holding two reports
and one image named by the RP1 convention. -/
theorem delete_report_no_cascade_witness :
    delete_report storeDel 1 =
      .ok { categories := storeDel.categories,
            reports := storeDel.reports.eraseP (fun x => x.id == 1),
            images := storeDel.images, nextReportId := storeDel.nextReportId,
            nextImageId := storeDel.nextImageId } ∧
    (storeDel.reports.eraseP (fun x => x.id == 1)).length + 1 = storeDel.reports.length ∧
    (∀ x ∈ storeDel.reports.eraseP (fun x => x.id == 1), x.id ≠ 1) :=
  delete_report_no_cascade storeDel 1 (mkReport 1 "Alpha Market" 1 "2024/01/01")
    (by decide) (by decide) (by decide)

/-- C5: when the workbook has more than one worksheet, the Excel transform's
payload is built solely from the last worksheet's rows — the loop of report.py
lines 784-785 overwrites `json_data` on each iteration, so the rows of every
earlier worksheet are dropped from the output. -/
theorem excel_last_sheet_only (fmtDate : Int → String)
    (sheets : List (String × List ExcelRow)) (lastS : String × List ExcelRow)
    (_hmulti : sheets ≠ []) :
    convert_excel_to_json fmtDate (sheets ++ [lastS]) =
      convert_excel_to_json fmtDate [lastS] ∧
    convert_excel_to_json fmtDate (sheets ++ [lastS]) =
      lastS.2.map (fun row => (transformRow fmtDate row, [])) := by
  have hrows : lastSheetRows (sheets ++ [lastS]) = lastS.2 := by
    unfold lastSheetRows
    rw [List.foldl_append]
    rfl
  have hone : lastSheetRows [lastS] = lastS.2 := rfl
  unfold convert_excel_to_json
  rw [hrows, hone]
  exact ⟨rfl, rfl⟩

/-- C5 witness: a two-sheet workbook; the payload equals the one of the
second sheet alone. -/
theorem excel_last_sheet_only_witness :
    convert_excel_to_json fmtNone ([("Sheet1", [xRow1])] ++ [("Sheet2", [xRow2])]) =
      convert_excel_to_json fmtNone [("Sheet2", [xRow2])] ∧
    convert_excel_to_json fmtNone ([("Sheet1", [xRow1])] ++ [("Sheet2", [xRow2])]) =
      [xRow2].map (fun row => (transformRow fmtNone row, [])) :=
  excel_last_sheet_only fmtNone [("Sheet1", [xRow1])] ("Sheet2", [xRow2]) (by decide)

/-- C6: creating a report with an image list assigns the report the store's
next id and stores each image of the request with every occurrence of the
placeholder token "XXX" in its name replaced by that id (report.py line 459);
the same holds for the bulk endpoint run on a one-element list. -/
theorem create_report_replaces_placeholder (st : Store) (req : CreateReportWithImages) :
    (create_report st req).1.images.map (fun im => (im.img_name, im.img_file)) =
      st.images.map (fun im => (im.img_name, im.img_file)) ++
        req.images.map (fun image =>
          (pyReplaceS "XXX" (toString st.nextReportId) image.img_name, image.img_file)) ∧
    (create_report st req).2 = st.nextReportId ∧
    (bulk_create_report st [req]).images.map (fun im => (im.img_name, im.img_file)) =
      st.images.map (fun im => (im.img_name, im.img_file)) ++
        req.images.map (fun image =>
          (pyReplaceS "XXX" (toString st.nextReportId) image.img_name, image.img_file)) := by
  have hfold : ∀ (rid : Nat) (images : List CreateReportImageRequest) (acc : Store),
      ((images.foldl (fun acc image =>
          { acc with
            images := acc.images ++ [{ id := acc.nextImageId,
                                       img_name := pyReplaceS "XXX" (toString rid) image.img_name,
                                       img_file := image.img_file }],
            nextImageId := acc.nextImageId + 1 }) acc).images).map
          (fun im => (im.img_name, im.img_file)) =
        acc.images.map (fun im => (im.img_name, im.img_file)) ++
          images.map (fun image =>
            (pyReplaceS "XXX" (toString rid) image.img_name, image.img_file)) := by
    intro rid images
    induction images with
    | nil => intro acc; simp
    | cons i t ih =>
      intro acc
      rw [List.foldl_cons, ih]
      simp
  have h1 := hfold st.nextReportId req.images
    { st with reports := st.reports ++ [reportOfRequest st.nextReportId req.report],
              nextReportId := st.nextReportId + 1 }
  refine ⟨?_, rfl, ?_⟩
  · simpa using h1
  · have hbulk : bulk_create_report st [req] = (create_report st req).1 := rfl
    rw [hbulk]
    simpa using h1

/-- C4 counterexample: on the title "Global Widget Global Market" the code
(report.py line 788, `replace('global ', '')`) removes BOTH occurrences of
"global " and yields "widget-market", while the claim's procedure — stripping
only the "global " prefix after truncation — yields "widget-global-market";
the two disagree at this concrete input. -/
theorem slug_not_only_leading_global_cex :
    derive_url "Global Widget Global Market" = "widget-market" ∧
    spec_slug "Global Widget Global Market" = "widget-global-market" ∧
    derive_url "Global Widget Global Market" ≠ spec_slug "Global Widget Global Market" := by
  refine ⟨by decide, by decide, by decide⟩

/-- C4 (amended): for every title the derived slug is: lowercase, truncate
after the first occurrence of "market" (when there is no occurrence, "market"
is appended), remove EVERY occurrence of "global ", hyphen-join the words
(`amended_slug`); the category name is mapped to its id through the hardcoded
lookup table; in particular the row with title "Global Widget Market" and
category "Analytics" yields url "widget-market" and category_id 1. -/
theorem excel_slug_amended (title : String) :
    derive_url title = amended_slug title ∧
    derive_url "Global Widget Market" = "widget-market" ∧
    mapCategory "Analytics" = CatValue.id 1 ∧
    (transformRow fmtNone widgetRow).url = "widget-market" ∧
    (transformRow fmtNone widgetRow).category_id = CatValue.id 1 := by
  refine ⟨?_, by decide, by decide, by decide, by decide⟩
  unfold derive_url amended_slug
  dsimp only
  rw [pySplit_head]
  cases h : findOcc "market".data (pyLower title.data) <;> simp [h]

/-- C7: whenever category ids are distinct and every report's category_id
refers to a stored category (the category_id foreign key), the per-category
counts of the aggregation sum to the total number of reports, and the
aggregation lists exactly the category ids that have at least one report. -/
theorem category_count_partition (st : Store)
    (hnd : (st.categories.map Category.id).Nodup)
    (hfk : ∀ r ∈ st.reports, r.category_id ∈ st.categories.map Category.id) :
    ((get_category_count st).map CategoryCountRow.count).sum = st.reports.length ∧
    ∀ cid : Nat, (cid ∈ (get_category_count st).map CategoryCountRow.category_id ↔
      ((∃ c ∈ st.categories, c.id = cid) ∧ ∃ r ∈ st.reports, r.category_id = cid)) := by
  have hperm : List.Perm (List.insertionSort byNameAsc st.categories) st.categories :=
    List.perm_insertionSort _ _
  constructor
  · have h1 : ((get_category_count st).map CategoryCountRow.count)
        = ((List.insertionSort byNameAsc st.categories).filter
            (fun c => reportCount st c.id != 0)).map (fun c => reportCount st c.id) := by
      simp [get_category_count, List.map_map]
    rw [h1, sum_map_filter_eq (fun c => reportCount st c.id)
      (fun c => reportCount st c.id != 0)
      (List.insertionSort byNameAsc st.categories)
      (fun c _ hfalse => by simpa using hfalse)]
    rw [(hperm.map (fun c => reportCount st c.id)).sum_eq]
    exact sum_countP_eq_length st.categories st.reports hnd hfk
  · intro cid
    have hchar : cid ∈ (get_category_count st).map CategoryCountRow.category_id ↔
        ∃ c, (c ∈ st.categories ∧ reportCount st c.id ≠ 0) ∧ c.id = cid := by
      simp [get_category_count, List.map_map, List.mem_filter, List.mem_insertionSort]
    rw [hchar]
    constructor
    · rintro ⟨c, ⟨hcmem, hcnt⟩, hcid⟩
      refine ⟨⟨c, hcmem, hcid⟩, ?_⟩
      rcases List.countP_pos_iff.mp (Nat.pos_of_ne_zero hcnt) with ⟨r, hrmem, hpr⟩
      exact ⟨r, hrmem, by rw [beq_iff_eq.mp hpr, hcid]⟩
    · rintro ⟨⟨c, hcmem, hcid⟩, r, hrmem, hrcid⟩
      refine ⟨c, ⟨hcmem, ?_⟩, hcid⟩
      apply Nat.pos_iff_ne_zero.mp
      exact List.countP_pos_iff.mpr ⟨r, hrmem, by simp [hrcid, hcid]⟩

/-- C7 witness: a store with two categories and three reports; counts 2 and 1
sum to 3. -/
theorem category_count_partition_witness :
    ((get_category_count storeCount).map CategoryCountRow.count).sum
      = storeCount.reports.length ∧
    ∀ cid : Nat, (cid ∈ (get_category_count storeCount).map CategoryCountRow.category_id ↔
      ((∃ c ∈ storeCount.categories, c.id = cid) ∧
        ∃ r ∈ storeCount.reports, r.category_id = cid)) :=
  category_count_partition storeCount (by decide) (by decide)

/-- C2 counterexample: a request with page = 0 (and per_page = 0) is NOT
rejected — neither router validates the page number, the computed offset
(0 - 1) * 0 = 0 is not negative, and the endpoint answers successfully —
refuting, at this concrete input, the claim that every request with page < 1
is rejected. -/
theorem page_zero_not_rejected_cex :
    get_latest_reports dateKey 0 0 storeLatest = .ok [] := rfl

/-- C2 (amended): both paginated read operations return exactly the slice
from offset (page - 1) * per_page of length per_page of their ordered
sequence — for page = 2, per_page = 10 the rows 11 through 20 — but the code
does not validate page < 1: such a request fails only through the database's
negative-OFFSET error, and when the computed offset is not negative (for
instance page = 0 with per_page = 0) it is answered successfully. -/
theorem paginated_reads_slice (castDT : String → Int) (fts : String → String → Bool)
    (keyword : String) (category_id : Option Nat) (st : Store) (page per_page : Int)
    (hp : 1 ≤ page) (hpp : 0 ≤ per_page) :
    get_latest_reports castDT page per_page st =
      .ok ((((latestAll castDT st).map latestProj).drop
        ((page - 1) * per_page).toNat).take per_page.toNat) ∧
    get_searched_reports castDT fts page per_page keyword category_id st =
      .ok (((searchAll castDT fts keyword category_id st).drop
        ((page - 1) * per_page).toNat).take per_page.toNat) ∧
    get_latest_reports castDT 2 10 st =
      .ok ((((latestAll castDT st).map latestProj).drop 10).take 10) ∧
    get_latest_reports castDT 0 0 st = .ok [] := by
  have h1 : (0 : Int) ≤ page - 1 := by omega
  have hoff : ¬ ((page - 1) * per_page < 0) := not_lt.mpr (mul_nonneg h1 hpp)
  have hl : ¬ (per_page < 0) := not_lt.mpr hpp
  refine ⟨?_, ?_, ?_, ?_⟩
  · simp only [get_latest_reports, if_neg hoff, if_neg hl]
  · simp only [get_searched_reports, if_neg hoff, if_neg hl]
  · rfl
  · rfl

/-- C2 witness: the slice theorem applied at page = 2, per_page = 10 on a
concrete store. -/
theorem paginated_reads_slice_witness :
    get_latest_reports dateKey 2 10 storeLatest =
      .ok ((((latestAll dateKey storeLatest).map latestProj).drop
        (((2 : Int) - 1) * 10).toNat).take (10 : Int).toNat) ∧
    get_searched_reports dateKey ftsFalse 2 10 "a" none storeLatest =
      .ok (((searchAll dateKey ftsFalse "a" none storeLatest).drop
        (((2 : Int) - 1) * 10).toNat).take (10 : Int).toNat) ∧
    get_latest_reports dateKey 2 10 storeLatest =
      .ok ((((latestAll dateKey storeLatest).map latestProj).drop 10).take 10) ∧
    get_latest_reports dateKey 0 0 storeLatest = .ok [] :=
  paginated_reads_slice dateKey ftsFalse "a" none storeLatest 2 10
    (by norm_num) (by norm_num)

/-- C1 counterexample: with keyword "alpha", both stored reports' titles
contain the keyword, but with per_page = 1 the search answers page 1 with only
the newer report: the older matching report is absent from the returned
results — refuting, at this concrete input, the claim that every report whose
title contains the keyword is included in the results. -/
theorem search_page_excludes_match_cex :
    titleContainsCI "alpha" repOlder.title ∧
    repOlder ∈ storeSearch.reports ∧
    get_searched_reports dateKey ftsFalse 1 1 "alpha" none storeSearch =
      .ok [toRow (repNewer, catAna)] ∧
    toRow (repOlder, catAna) ∉ [toRow (repNewer, catAna)] := by
  refine ⟨by decide, by decide, rfl, by decide⟩

/-- C1 (amended): every report whose title contains the keyword as a
case-insensitive substring, whose category exists, and which passes the
optional category filter, is in the matched ordered sequence `searchAll`; that
sequence is ordered by the cast of created_date descending; and the endpoint
returns exactly the page slice from offset (page - 1) * per_page of length
per_page of it (so a matching report can fall outside the requested page), the
returned page being itself ordered by created_date descending. -/
theorem search_includes_substring_matches
    (castDT : String → Int) (fts : String → String → Bool) (keyword : String)
    (category_id : Option Nat) (st : Store) (page per_page : Int)
    (r : Report) (c : Category)
    (hr : r ∈ st.reports) (hc : c ∈ st.categories) (hcid : c.id = r.category_id)
    (ht : titleContainsCI keyword r.title)
    (hfil : category_id = none ∨ category_id = some r.category_id)
    (hp : 1 ≤ page) (hpp : 0 ≤ per_page) :
    toRow (r, c) ∈ searchAll castDT fts keyword category_id st ∧
    List.Sorted (byDateDesc castDT) (searchAll castDT fts keyword category_id st) ∧
    ∀ out, get_searched_reports castDT fts page per_page keyword category_id st = .ok out →
      List.Sorted (byDateDesc castDT) out ∧
      out = ((searchAll castDT fts keyword category_id st).drop
        ((page - 1) * per_page).toNat).take per_page.toNat := by
  haveI hTot : IsTotal GetReportRow (byDateDesc castDT) :=
    ⟨fun a b => le_total (castDT b.created_date) (castDT a.created_date)⟩
  haveI hTr : IsTrans GetReportRow (byDateDesc castDT) :=
    ⟨fun _ _ _ hab hbc => le_trans hbc hab⟩
  have hsorted : List.Sorted (byDateDesc castDT) (searchAll castDT fts keyword category_id st) :=
    List.sorted_insertionSort _ _
  have h1 : (0 : Int) ≤ page - 1 := by omega
  have hoff : ¬ ((page - 1) * per_page < 0) := not_lt.mpr (mul_nonneg h1 hpp)
  have hl : ¬ (per_page < 0) := not_lt.mpr hpp
  refine ⟨?_, hsorted, ?_⟩
  · have hmem : toRow (r, c) ∈
        ((joinReportCategory st).filter (searchFilter fts keyword category_id)).map toRow := by
      refine List.mem_map.mpr ⟨(r, c), ?_, rfl⟩
      refine List.mem_filter.mpr ⟨?_, ?_⟩
      · refine List.mem_flatMap.mpr ⟨r, hr, ?_⟩
        refine List.mem_map.mpr ⟨c, ?_, rfl⟩
        exact List.mem_filter.mpr ⟨hc, by simp [hcid]⟩
      · have hil : ilike_contains keyword r.title = true := decide_eq_true ht
        rcases hfil with rfl | rfl
        · simp [searchFilter, hil]
        · simp [searchFilter, hil]
    simp only [searchAll, List.mem_insertionSort]
    exact hmem
  · intro out hout
    have hslice : get_searched_reports castDT fts page per_page keyword category_id st =
        .ok (((searchAll castDT fts keyword category_id st).drop
          ((page - 1) * per_page).toNat).take per_page.toNat) := by
      simp only [get_searched_reports, if_neg hoff, if_neg hl]
    rw [hslice] at hout
    have heq := (Except.ok.inj hout).symm
    subst heq
    refine ⟨?_, rfl⟩
    exact List.Pairwise.sublist
      ((List.take_sublist _ _).trans (List.drop_sublist _ _)) hsorted

/-- C1 witness: the inclusion and ordering theorem applied on a concrete
store, at page 1 with per_page 1. -/
theorem search_includes_substring_matches_witness :
    toRow (repNewer, catAna) ∈ searchAll dateKey ftsFalse "alpha" none storeSearch ∧
    List.Sorted (byDateDesc dateKey) (searchAll dateKey ftsFalse "alpha" none storeSearch) ∧
    ∀ out, get_searched_reports dateKey ftsFalse 1 1 "alpha" none storeSearch = .ok out →
      List.Sorted (byDateDesc dateKey) out ∧
      out = ((searchAll dateKey ftsFalse "alpha" none storeSearch).drop
        (((1 : Int) - 1) * 1).toNat).take (1 : Int).toNat :=
  search_includes_substring_matches dateKey ftsFalse "alpha" none storeSearch 1 1
    repNewer catAna (by decide) (by decide) (by decide) (by decide) (Or.inl rfl)
    (by norm_num) (by norm_num)

end Reseller
